import Mathlib

/-!
Shallow embedding of the product query pipeline of this repository
(the `getProducts` controller together with the in-memory `db` store).

The controller reads the query parameters `category`, `search`, `minPrice`,
`maxPrice`, `sort`, `page` (default 1) and `limit` (default 20), fetches the
product array from the store, applies the four filters in sequence with
JavaScript truthiness guards, sorts in place for the three recognized sort
keys, slices one page with `Array.prototype.slice`, and responds with the
page of products plus `page`, `limit`, `total` and `pages` metadata.

Modelling conventions:
* Machine numbers: prices and ratings are exact rationals, `page`/`limit`
  are the integers produced by `parseInt`, timestamps are integers.
* A query-string parameter is modelled by the outcome the controller can
  observe: `none` for an absent or empty (falsy) parameter; for the price
  bounds, `some none` for a supplied string whose `parseFloat` is `NaN`
  (every comparison with `NaN` is false) and `some (some x)` for a supplied
  string parsing to the finite number `x`.
* `Array.prototype.sort` with a consistent numeric comparator is a stable
  sort placing `a` before `b` when the comparator is negative; it is
  embedded as insertion sort with the induced total preorder.
* `Array.prototype.slice` is embedded with the ECMAScript index clamping
  rules, including negative indices resolved from the end.
-/

/-- A product record of the in-memory store. `categoryId` may be absent and
`createdAt` stands for the ISO timestamp (whose string order is the
chronological order). -/
structure Product where
  id : String
  name : String
  description : String
  price : ℚ
  categoryId : Option String
  stock : ℕ
  rating : ℚ
  createdAt : ℤ
deriving DecidableEq

/-- The query parameters read by the controller, after URL parsing.
`none` stands for an absent or empty (falsy) parameter; for the price
bounds `some none` stands for a supplied string whose `parseFloat` is
`NaN`. `page` and `limit` carry the `parseInt` results, with the
destructuring defaults 1 and 20. -/
structure Query where
  category : Option String := none
  search : Option String := none
  minPrice : Option (Option ℚ) := none
  maxPrice : Option (Option ℚ) := none
  sort : Option String := none
  page : ℤ := 1
  limit : ℤ := 20
deriving DecidableEq

/-- The `data` object of the controller's JSON response: the page of
products and the pagination metadata. `pages` is `none` when
`Math.ceil(total / limit)` is not a finite number (division by zero). -/
structure QueryResponse where
  products : List Product
  page : ℤ
  limit : ℤ
  total : ℕ
  pages : Option ℤ
deriving DecidableEq

/-- Lower-casing as used by `toLowerCase()` on the ASCII data of this app. -/
def strLower (s : String) : String := s.map Char.toLower

/-- Does the character list start with the given pattern? -/
def charsStartWith : List Char → List Char → Bool
  | _, [] => true
  | [], _ :: _ => false
  | c :: cs, d :: ds => c == d && charsStartWith cs ds

/-- Does the character list contain the given pattern as a contiguous run?
This is `String.prototype.includes` on the underlying characters. -/
def charsContain : List Char → List Char → Bool
  | [], pat => pat.isEmpty
  | c :: cs, pat => charsStartWith (c :: cs) pat || charsContain cs pat

/-- `haystack.toLowerCase().includes(needle.toLowerCase())`. -/
def jsIncludes (haystack needle : String) : Bool :=
  charsContain (strLower haystack).data (strLower needle).data

/-- `if (category) { products = products.filter(p => p.categoryId === category) }`. -/
def applyCategory (q : Query) (l : List Product) : List Product :=
  match q.category with
  | some c => if c = "" then l else l.filter (fun p => p.categoryId == some c)
  | none => l

/-- `if (search) { ... p.name.toLowerCase().includes(searchLower) || p.description.toLowerCase().includes(searchLower) }`. -/
def applySearch (q : Query) (l : List Product) : List Product :=
  match q.search with
  | some s =>
      if s = "" then l
      else l.filter (fun p => jsIncludes p.name s || jsIncludes p.description s)
  | none => l

/-- `if (minPrice) { products = products.filter(p => p.price >= parseFloat(minPrice)) }`;
a `NaN` bound makes the comparison false for every product. -/
def applyMinPrice (q : Query) (l : List Product) : List Product :=
  match q.minPrice with
  | some (some m) => l.filter (fun p => decide (m ≤ p.price))
  | some none => l.filter (fun _ => false)
  | none => l

/-- `if (maxPrice) { products = products.filter(p => p.price <= parseFloat(maxPrice)) }`. -/
def applyMaxPrice (q : Query) (l : List Product) : List Product :=
  match q.maxPrice with
  | some (some m) => l.filter (fun p => decide (p.price ≤ m))
  | some none => l.filter (fun _ => false)
  | none => l

/-- The four filter passes of the controller, in source order. -/
def filteredProducts (catalog : List Product) (q : Query) : List Product :=
  applyMaxPrice q (applyMinPrice q (applySearch q (applyCategory q catalog)))

/-- The total preorder induced by a numeric key: `a` may stay before `b`
when the comparator `key a - key b` is not positive. -/
def keyLe (key : Product → ℚ) : Product → Product → Prop :=
  fun a b => key a ≤ key b

instance (key : Product → ℚ) : DecidableRel (keyLe key) :=
  fun a b => inferInstanceAs (Decidable (key a ≤ key b))

instance (key : Product → ℚ) : IsTotal Product (keyLe key) :=
  ⟨fun a b => le_total (key a) (key b)⟩

instance (key : Product → ℚ) : IsTrans Product (keyLe key) :=
  ⟨fun _ _ _ => le_trans⟩

/-- Stable sort by a numeric key: the embedding of
`products.sort((a, b) => key(a) - key(b))`. -/
def sortByKey (key : Product → ℚ) (l : List Product) : List Product :=
  List.insertionSort (keyLe key) l

/-- The sort stage of the controller: three recognized keys, otherwise no
reordering. `price_desc` and `rating` use the negated key, matching the
comparators `b.price - a.price` and `b.rating - a.rating`. -/
def sortStage (sort : Option String) (l : List Product) : List Product :=
  if sort = some "price_asc" then sortByKey (fun p => p.price) l
  else if sort = some "price_desc" then sortByKey (fun p => -p.price) l
  else if sort = some "rating" then sortByKey (fun p => -p.rating) l
  else l

/-- The ECMAScript index clamping of `Array.prototype.slice`: a negative
index counts from the end, and both ends clamp into `[0, length]`. -/
def jsIdx (n : ℕ) (i : ℤ) : ℕ :=
  (if i < 0 then max ((n : ℤ) + i) 0 else min i (n : ℤ)).toNat

/-- `Array.prototype.slice(s, e)`: the run of elements from the clamped
start to the clamped end (empty when the end is not past the start). -/
def jsSlice {α : Type} (l : List α) (s e : ℤ) : List α :=
  (l.drop (jsIdx l.length s)).take (jsIdx l.length e - jsIdx l.length s)

/-- `Math.ceil(total / limit)`: `none` for the non-finite results obtained
when `limit` is zero (`NaN` or `Infinity`). -/
def jsPages (total : ℕ) (limit : ℤ) : Option ℤ :=
  if limit = 0 then none else some ⌈(total : ℚ) / (limit : ℚ)⌉

/-- The whole `getProducts` controller: filter, sort, paginate, and build
the response data. -/
def getProducts (catalog : List Product) (q : Query) : QueryResponse :=
  let products := sortStage q.sort (filteredProducts catalog q)
  let startIndex : ℤ := (q.page - 1) * q.limit
  let endIndex : ℤ := startIndex + q.limit
  { products := jsSlice products startIndex endIndex
    page := q.page
    limit := q.limit
    total := products.length
    pages := jsPages products.length q.limit }

/-- Is any of the four filter guards truthy? When one is, the controller's
local `products` variable is rebound to a fresh array produced by
`Array.prototype.filter`, and the store's array is no longer aliased. -/
def anyFilterApplied (q : Query) : Bool :=
  (match q.category with | some c => c ≠ "" | none => false) ||
  (match q.search with | some s => s ≠ "" | none => false) ||
  (match q.minPrice with | some _ => true | none => false) ||
  (match q.maxPrice with | some _ => true | none => false)

/-- The state of the store's `products` array after the controller runs:
`db.getProducts()` returns the array itself, so when no filter rebinds the
local variable, `products.sort(...)` reorders the store's array in place. -/
def catalogAfterGetProducts (catalog : List Product) (q : Query) : List Product :=
  if anyFilterApplied q then catalog else sortStage q.sort catalog

/-- Per-product category predicate equivalent to the category pass. -/
def matchCategory (q : Query) (p : Product) : Bool :=
  match q.category with
  | some c => if c = "" then true else p.categoryId == some c
  | none => true

/-- Per-product search predicate equivalent to the search pass. -/
def matchSearch (q : Query) (p : Product) : Bool :=
  match q.search with
  | some s => if s = "" then true else jsIncludes p.name s || jsIncludes p.description s
  | none => true

/-- Per-product minimum-price predicate equivalent to the minPrice pass. -/
def matchMinPrice (q : Query) (p : Product) : Bool :=
  match q.minPrice with
  | some (some m) => decide (m ≤ p.price)
  | some none => false
  | none => true

/-- Per-product maximum-price predicate equivalent to the maxPrice pass. -/
def matchMaxPrice (q : Query) (p : Product) : Bool :=
  match q.maxPrice with
  | some (some m) => decide (p.price ≤ m)
  | some none => false
  | none => true

/-- The conjunction of the four active filters. -/
def matchesAll (q : Query) (p : Product) : Bool :=
  ((matchCategory q p && matchSearch q p) && matchMinPrice q p) && matchMaxPrice q p

lemma applyCategory_eq_filter (q : Query) (l : List Product) :
    applyCategory q l = l.filter (matchCategory q) := by
  unfold applyCategory matchCategory
  cases q.category with
  | none => simp
  | some c => by_cases hc : c = "" <;> simp [hc]

lemma applySearch_eq_filter (q : Query) (l : List Product) :
    applySearch q l = l.filter (matchSearch q) := by
  unfold applySearch matchSearch
  cases q.search with
  | none => simp
  | some s => by_cases hs : s = "" <;> simp [hs]

lemma applyMinPrice_eq_filter (q : Query) (l : List Product) :
    applyMinPrice q l = l.filter (matchMinPrice q) := by
  unfold applyMinPrice matchMinPrice
  match q.minPrice with
  | some (some m) => rfl
  | some none => simp
  | none => simp

lemma applyMaxPrice_eq_filter (q : Query) (l : List Product) :
    applyMaxPrice q l = l.filter (matchMaxPrice q) := by
  unfold applyMaxPrice matchMaxPrice
  match q.maxPrice with
  | some (some m) => rfl
  | some none => simp
  | none => simp

lemma filteredProducts_eq_filter (catalog : List Product) (q : Query) :
    filteredProducts catalog q = catalog.filter (matchesAll q) := by
  unfold filteredProducts
  rw [applyCategory_eq_filter, applySearch_eq_filter, applyMinPrice_eq_filter,
    applyMaxPrice_eq_filter, List.filter_filter, List.filter_filter, List.filter_filter]
  congr 1
  funext p
  simp [matchesAll, Bool.and_comm, Bool.and_left_comm, Bool.and_assoc]

lemma sortByKey_perm (key : Product → ℚ) (l : List Product) :
    (sortByKey key l).Perm l :=
  List.perm_insertionSort (keyLe key) l

lemma sortStage_perm (s : Option String) (l : List Product) :
    (sortStage s l).Perm l := by
  unfold sortStage
  split_ifs <;> first | exact sortByKey_perm _ l | exact List.Perm.refl l

lemma sortStage_length (s : Option String) (l : List Product) :
    (sortStage s l).length = l.length :=
  (sortStage_perm s l).length_eq

lemma jsSlice_sublist {α : Type} (l : List α) (s e : ℤ) :
    (jsSlice l s e).Sublist l := by
  unfold jsSlice
  exact (List.take_sublist _ _).trans (List.drop_sublist _ _)

lemma mem_of_mem_jsSlice {α : Type} {l : List α} {s e : ℤ} {x : α}
    (h : x ∈ jsSlice l s e) : x ∈ l :=
  (jsSlice_sublist l s e).mem h

lemma getProducts_products_match {catalog : List Product} {q : Query} {p : Product}
    (h : p ∈ (getProducts catalog q).products) :
    matchesAll q p = true ∧ p ∈ catalog := by
  have h1 : p ∈ sortStage q.sort (filteredProducts catalog q) :=
    mem_of_mem_jsSlice h
  have h2 : p ∈ filteredProducts catalog q := (sortStage_perm _ _).mem_iff.mp h1
  rw [filteredProducts_eq_filter] at h2
  exact ⟨(List.mem_filter.mp h2).2, (List.mem_filter.mp h2).1⟩

lemma getProducts_total (catalog : List Product) (q : Query) :
    (getProducts catalog q).total = (catalog.filter (matchesAll q)).length := by
  show (sortStage q.sort (filteredProducts catalog q)).length = _
  rw [sortStage_length, filteredProducts_eq_filter]

lemma filter_orderedInsert_keyEq (key : Product → ℚ) (v : ℚ) (x : Product)
    (l : List Product) :
    (List.orderedInsert (keyLe key) x l).filter (fun a => decide (key a = v))
      = if key x = v then x :: l.filter (fun a => decide (key a = v))
        else l.filter (fun a => decide (key a = v)) := by
  induction l with
  | nil =>
    by_cases hx : key x = v <;> simp [List.orderedInsert, List.filter_cons, hx]
  | cons y ys ih =>
    by_cases hxy : keyLe key x y
    · rw [List.orderedInsert_of_le _ _ hxy]
      by_cases hx : key x = v <;> simp [List.filter_cons, hx]
    · have hstep : List.orderedInsert (keyLe key) x (y :: ys)
          = y :: List.orderedInsert (keyLe key) x ys := by
        simp [List.orderedInsert, hxy]
      have hlt : key y < key x := lt_of_not_le hxy
      rw [hstep]
      by_cases hy : key y = v
      · have hx : ¬ key x = v := by
          intro hx
          exact absurd (hx.trans hy.symm ▸ hlt) (lt_irrefl _)
        simp [List.filter_cons, hy, hx, ih]
      · simp [List.filter_cons, hy, ih]

lemma filter_sortByKey_keyEq (key : Product → ℚ) (v : ℚ) (l : List Product) :
    (sortByKey key l).filter (fun a => decide (key a = v))
      = l.filter (fun a => decide (key a = v)) := by
  induction l with
  | nil => rfl
  | cons x xs ih =>
    unfold sortByKey at ih
    show (List.orderedInsert _ x (List.insertionSort _ xs)).filter _ = _
    rw [filter_orderedInsert_keyEq]
    by_cases hx : key x = v <;> simp [List.filter_cons, hx, ih]

lemma sorted_sortByKey (key : Product → ℚ) (l : List Product) :
    (sortByKey key l).Sorted (keyLe key) :=
  List.sorted_insertionSort (keyLe key) l

lemma jsSlice_nonneg {α : Type} (l : List α) (s L : ℤ) (hs : 0 ≤ s) (hL : 0 ≤ L) :
    jsSlice l s (s + L) = (l.drop s.toNat).take L.toNat := by
  unfold jsSlice jsIdx
  have hn : (0:ℤ) ≤ (l.length:ℤ) := by positivity
  rw [if_neg (not_lt.mpr hs), if_neg (not_lt.mpr (by omega))]
  rcases le_or_lt (l.length : ℤ) s with hsn | hsn
  · rw [min_eq_right hsn]
    have h2 : l.drop s.toNat = [] := by
      apply List.drop_eq_nil_of_le
      omega
    simp [h2]
  · rw [min_eq_left hsn.le]
    apply List.take_eq_take.mpr
    simp only [List.length_drop]
    omega

lemma jsSlice_length_le {α : Type} (l : List α) (s L : ℤ) (hL : 0 ≤ L) :
    (jsSlice l s (s + L)).length ≤ L.toNat := by
  unfold jsSlice jsIdx
  simp only [List.length_take, List.length_drop]
  split_ifs <;> omega

lemma jsSlice_eq_nil_of_le {α : Type} (l : List α) (s e : ℤ)
    (hs : 0 ≤ s) (h : (l.length : ℤ) ≤ s) :
    jsSlice l s e = [] := by
  unfold jsSlice jsIdx
  rw [if_neg (not_lt.mpr hs), min_eq_right h]
  simp

lemma join_take_chunks {α : Type} (l : List α) (L : ℕ) :
    ∀ n : ℕ,
      ((List.range n).map (fun i => (l.drop (i * L)).take L)).flatten = l.take (n * L)
  | 0 => by simp
  | n + 1 => by
    rw [List.range_succ, List.map_append, List.flatten_append, join_take_chunks l L n]
    simp only [List.map_cons, List.map_nil, List.flatten_cons, List.flatten_nil,
      List.append_nil]
    rw [Nat.succ_mul, List.take_add]

lemma ceil_cast_div_eq (t L : ℕ) (hL : 1 ≤ L) :
    ⌈(t : ℚ) / (L : ℚ)⌉ = ((t + L - 1) / L : ℕ) := by
  have hL0 : (0:ℚ) < (L : ℚ) := by exact_mod_cast hL
  set d : ℕ := (t + L - 1) / L with hd
  have key : t ≤ L * d ∧ L * d < t + L := by
    have hmod := Nat.div_add_mod (t + L - 1) L
    have hr : (t + L - 1) % L < L := Nat.mod_lt _ (by omega)
    rw [← hd] at hmod
    obtain ⟨r, hrL, heq⟩ : ∃ r, r < L ∧ L * d + r = t + L - 1 :=
      ⟨(t + L - 1) % L, hr, hmod⟩
    generalize L * d = e at heq ⊢
    omega
  obtain ⟨h1, h2⟩ := key
  rw [Int.ceil_eq_iff]
  refine ⟨?_, ?_⟩
  · rw [lt_div_iff₀ hL0]
    have h2q : (L : ℚ) * (d : ℚ) < (t : ℚ) + (L : ℚ) := by exact_mod_cast h2
    push_cast
    linarith
  · rw [div_le_iff₀ hL0]
    have h1q : (t : ℚ) ≤ (L : ℚ) * (d : ℚ) := by exact_mod_cast h1
    push_cast
    linarith

lemma jsPages_eq_ceilDiv (t : ℕ) (L : ℤ) (hL : 1 ≤ L) :
    jsPages t L = some (((t + L.toNat - 1) / L.toNat : ℕ) : ℤ) := by
  obtain ⟨n, rfl⟩ : ∃ n : ℕ, L = (n : ℤ) :=
    ⟨L.toNat, (Int.toNat_of_nonneg (by omega)).symm⟩
  have hn : 1 ≤ n := by exact_mod_cast hL
  unfold jsPages
  rw [if_neg (by omega), Int.toNat_natCast]
  have hq : ((n : ℤ) : ℚ) = (n : ℚ) := by push_cast; ring
  rw [hq, ceil_cast_div_eq t n hn]

lemma ceilDiv_bounds (t L : ℕ) (hL : 1 ≤ L) :
    t ≤ L * ((t + L - 1) / L) ∧ L * ((t + L - 1) / L) < t + L := by
  have hmod := Nat.div_add_mod (t + L - 1) L
  have hr : (t + L - 1) % L < L := Nat.mod_lt _ (by omega)
  omega

lemma sortStage_price_asc (l : List Product) :
    sortStage (some "price_asc") l = sortByKey (fun p => p.price) l := by
  simp [sortStage]

lemma sortStage_price_desc (l : List Product) :
    sortStage (some "price_desc") l = sortByKey (fun p => -p.price) l := by
  simp [sortStage]

lemma sortStage_rating (l : List Product) :
    sortStage (some "rating") l = sortByKey (fun p => -p.rating) l := by
  simp [sortStage]

lemma sortStage_other (s : Option String) (l : List Product)
    (h1 : s ≠ some "price_asc") (h2 : s ≠ some "price_desc") (h3 : s ≠ some "rating") :
    sortStage s l = l := by
  simp [sortStage, h1, h2, h3]

lemma getProducts_sorted_of_key (catalog : List Product) (q : Query)
    (key : Product → ℚ)
    (hS : sortStage q.sort (filteredProducts catalog q)
        = sortByKey key (filteredProducts catalog q)) :
    (getProducts catalog q).products.Sorted (keyLe key) := by
  have hs : (sortStage q.sort (filteredProducts catalog q)).Sorted (keyLe key) := by
    rw [hS]
    exact sorted_sortByKey _ _
  exact hs.sublist (jsSlice_sublist _ _ _)

lemma getProducts_stable_of_key (catalog : List Product) (q : Query)
    (key : Product → ℚ)
    (hS : sortStage q.sort (filteredProducts catalog q)
        = sortByKey key (filteredProducts catalog q)) (v : ℚ) :
    ((getProducts catalog q).products.filter (fun a => decide (key a = v))).Sublist
      (catalog.filter (fun a => decide (key a = v))) := by
  have h1 : ((getProducts catalog q).products.filter (fun a => decide (key a = v))).Sublist
      ((sortStage q.sort (filteredProducts catalog q)).filter (fun a => decide (key a = v))) :=
    (jsSlice_sublist _ _ _).filter _
  rw [hS, filter_sortByKey_keyEq, filteredProducts_eq_filter, List.filter_comm] at h1
  exact h1.trans (List.filter_sublist _)

/-- The five products of the specification's concrete scenarios. -/
def prodA : Product := ⟨"a", "Alpha", "first", 10, some "x", 5, 4, 1⟩

def prodB : Product := ⟨"b", "Beta", "second", 30, some "y", 5, 2, 2⟩

def prodC : Product := ⟨"c", "Gamma", "third", 20, some "x", 5, 5, 3⟩

def prodD : Product := ⟨"d", "Delta", "fourth", 5, some "x", 5, 1, 4⟩

def prodE : Product := ⟨"e", "Epsilon", "fifth", 50, some "y", 5, 3, 5⟩

def catalogFive : List Product := [prodA, prodB, prodC, prodD, prodE]

lemma getProducts_no_reorder (catalog : List Product) (q : Query)
    (hss : sortStage q.sort (filteredProducts catalog q) = filteredProducts catalog q) :
    (getProducts catalog q).products
        = jsSlice (filteredProducts catalog q) ((q.page - 1) * q.limit)
            ((q.page - 1) * q.limit + q.limit) ∧
    ((getProducts catalog q).products).Sublist catalog := by
  constructor
  · show jsSlice (sortStage q.sort (filteredProducts catalog q)) _ _ = _
    rw [hss]
  · have h1 : ((getProducts catalog q).products).Sublist
        (sortStage q.sort (filteredProducts catalog q)) := jsSlice_sublist _ _ _
    rw [hss, filteredProducts_eq_filter] at h1
    exact h1.trans (List.filter_sublist _)

/-- C1: every product on the returned page satisfies all active filters
conjunctively — category equal to the supplied categoryId, lower-cased
search term contained in the lower-cased name or description, price at
least minPrice and at most maxPrice — and `total` counts exactly the
catalog products satisfying all active filters. -/
theorem C1_filter_conjunction (catalog : List Product) (q : Query) :
    (∀ p ∈ (getProducts catalog q).products,
      (∀ c, q.category = some c → c ≠ "" → p.categoryId = some c) ∧
      (∀ s, q.search = some s → s ≠ "" →
        (jsIncludes p.name s = true ∨ jsIncludes p.description s = true)) ∧
      (∀ m, q.minPrice = some (some m) → m ≤ p.price) ∧
      (∀ m, q.maxPrice = some (some m) → p.price ≤ m)) ∧
    (getProducts catalog q).total = (catalog.filter (matchesAll q)).length := by
  refine ⟨fun p hp => ?_, getProducts_total catalog q⟩
  obtain ⟨hm, -⟩ := getProducts_products_match hp
  unfold matchesAll at hm
  simp only [Bool.and_eq_true] at hm
  obtain ⟨⟨⟨hcat, hsearch⟩, hmin⟩, hmax⟩ := hm
  refine ⟨?_, ?_, ?_, ?_⟩
  · intro c hc hne
    unfold matchCategory at hcat
    rw [hc] at hcat
    simp only [if_neg hne, beq_iff_eq] at hcat
    exact hcat
  · intro s hs hne
    unfold matchSearch at hsearch
    rw [hs] at hsearch
    simp only [if_neg hne, Bool.or_eq_true] at hsearch
    exact hsearch
  · intro m hmp
    unfold matchMinPrice at hmin
    rw [hmp] at hmin
    exact of_decide_eq_true hmin
  · intro m hmp
    unfold matchMaxPrice at hmax
    rw [hmp] at hmax
    exact of_decide_eq_true hmax

/-- C1 witness: on a one-product catalog with an active minPrice filter,
the returned product indeed has price at least the bound. -/
theorem C1_filter_conjunction_witness : (10 : ℚ) ≤ prodA.price :=
  ((C1_filter_conjunction [prodA] { minPrice := some (some 10) }).1 prodA
    (by decide)).2.2.1 10 rfl

/-- C2 counterexample: with the sort key absent, the returned items are
not ordered descending by `createdAt` — on this catalog (ascending
creation times) they stay in catalog order. -/
theorem C2_counterexample :
    ¬ ((getProducts [prodA, prodB] {}).products).Sorted
        (fun a b => b.createdAt ≤ a.createdAt) := by decide

/-- C2 amended: when the sort key is absent the pipeline applies no
ordering at all — the returned items are the filtered products in their
original catalog relative order, selected by the page slice. -/
theorem C2_no_sort_keeps_catalog_order (catalog : List Product) (q : Query)
    (h : q.sort = none) :
    (getProducts catalog q).products
        = jsSlice (filteredProducts catalog q) ((q.page - 1) * q.limit)
            ((q.page - 1) * q.limit + q.limit) ∧
    ((getProducts catalog q).products).Sublist catalog :=
  getProducts_no_reorder catalog q
    (sortStage_other _ _ (by simp [h]) (by simp [h]) (by simp [h]))

/-- C2 amended witness: the default query on a two-product catalog. -/
theorem C2_no_sort_witness :
    (getProducts [prodA, prodB] ({} : Query)).products
        = jsSlice (filteredProducts [prodA, prodB] {})
            ((({} : Query).page - 1) * ({} : Query).limit)
            ((({} : Query).page - 1) * ({} : Query).limit + ({} : Query).limit) ∧
    ((getProducts [prodA, prodB] ({} : Query)).products).Sublist [prodA, prodB] :=
  C2_no_sort_keeps_catalog_order [prodA, prodB] {} rfl

/-- C3: the claim fails on the code — `db.getProducts()` hands out the
store's array itself, and with no filter active the in-place sort reorders
that array: after this call the catalog is permuted. -/
theorem C3_catalog_mutated :
    catalogAfterGetProducts [prodB, prodA] { sort := some "price_asc" }
        = [prodA, prodB] ∧
    [prodA, prodB] ≠ [prodB, prodA] := by decide

/-- C4 counterexample: a supplied page of 0 is echoed as 0 (not clamped to
1), and its slice differs from page 1's slice. -/
theorem C4_counterexample :
    (getProducts [prodA] { page := 0, limit := 5 }).page = 0 ∧
    (getProducts [prodA] { page := 0, limit := 5 }).products = [] ∧
    (getProducts [prodA] { page := 1, limit := 5 }).products = [prodA] := by decide

/-- C4 amended: the pipeline performs no clamping — `page` and `pageSize`
are used exactly as parsed and echoed unchanged, and the page slice is
taken at start index `(page - 1) * pageSize` under JavaScript slice
semantics (a negative start resolves relative to the end). -/
theorem C4_no_clamping (catalog : List Product) (q : Query) :
    (getProducts catalog q).page = q.page ∧
    (getProducts catalog q).limit = q.limit ∧
    (getProducts catalog q).products
        = jsSlice (sortStage q.sort (filteredProducts catalog q))
            ((q.page - 1) * q.limit) ((q.page - 1) * q.limit + q.limit) :=
  ⟨rfl, rfl, rfl⟩

/-- C9 counterexample: an unparseable minPrice is not treated as "filter
not applied" — the result differs from the result with the bound absent. -/
theorem C9_counterexample :
    getProducts [prodA] { minPrice := some none } ≠ getProducts [prodA] ({} : Query) :=
  fun h => absurd (congrArg QueryResponse.products h) (by decide)

/-- C9 amended: a supplied but unparseable price bound is not ignored —
its `NaN` comparison is false for every product, so the filter rejects
everything: no items are returned and the total is zero. -/
theorem C9_nan_bound_rejects_all (catalog : List Product) (q : Query)
    (h : q.minPrice = some none ∨ q.maxPrice = some none) :
    (getProducts catalog q).products = [] ∧ (getProducts catalog q).total = 0 := by
  have hnil : catalog.filter (matchesAll q) = [] := by
    rw [List.filter_eq_nil_iff]
    intro a _
    unfold matchesAll matchMinPrice matchMaxPrice
    rcases h with h | h <;> rw [h] <;> simp
  have hF : filteredProducts catalog q = [] := by
    rw [filteredProducts_eq_filter, hnil]
  have hSnil : sortStage q.sort (filteredProducts catalog q) = [] := by
    rw [hF]
    unfold sortStage sortByKey
    split_ifs <;> rfl
  constructor
  · show jsSlice (sortStage q.sort (filteredProducts catalog q)) _ _ = []
    rw [hSnil]
    simp [jsSlice]
  · rw [getProducts_total, hnil]
    rfl

/-- C9 amended witness: a NaN minPrice on a one-product catalog. -/
theorem C9_nan_bound_witness :
    (getProducts [prodA] { minPrice := some none }).products = [] ∧
    (getProducts [prodA] { minPrice := some none }).total = 0 :=
  C9_nan_bound_rejects_all [prodA] { minPrice := some none } (Or.inl rfl)

/-- C5: for each recognized explicit sort key the returned items are
ordered accordingly — ascending by price, descending by price, descending
by rating — and the sort is stable: items with equal key value keep their
original catalog relative order. -/
theorem C5_explicit_sorts_sorted_stable (catalog : List Product) (q : Query) :
    (q.sort = some "price_asc" →
      ((getProducts catalog q).products).Sorted (fun a b => a.price ≤ b.price) ∧
      ∀ v : ℚ,
        (((getProducts catalog q).products).filter (fun p => decide (p.price = v))).Sublist
          (catalog.filter (fun p => decide (p.price = v)))) ∧
    (q.sort = some "price_desc" →
      ((getProducts catalog q).products).Sorted (fun a b => b.price ≤ a.price) ∧
      ∀ v : ℚ,
        (((getProducts catalog q).products).filter (fun p => decide (p.price = v))).Sublist
          (catalog.filter (fun p => decide (p.price = v)))) ∧
    (q.sort = some "rating" →
      ((getProducts catalog q).products).Sorted (fun a b => b.rating ≤ a.rating) ∧
      ∀ v : ℚ,
        (((getProducts catalog q).products).filter (fun p => decide (p.rating = v))).Sublist
          (catalog.filter (fun p => decide (p.rating = v)))) := by
  refine ⟨fun h => ?_, fun h => ?_, fun h => ?_⟩
  · have hS : sortStage q.sort (filteredProducts catalog q)
        = sortByKey (fun p => p.price) (filteredProducts catalog q) := by
      rw [h, sortStage_price_asc]
    exact ⟨getProducts_sorted_of_key catalog q _ hS,
      fun v => getProducts_stable_of_key catalog q _ hS v⟩
  · have hS : sortStage q.sort (filteredProducts catalog q)
        = sortByKey (fun p => -p.price) (filteredProducts catalog q) := by
      rw [h, sortStage_price_desc]
    refine ⟨?_, fun v => ?_⟩
    · have hs := getProducts_sorted_of_key catalog q _ hS
      exact hs.imp (fun hab => neg_le_neg_iff.mp hab)
    · have hst := getProducts_stable_of_key catalog q _ hS (-v)
      have hfun : (fun a : Product => decide (-a.price = -v))
          = (fun a : Product => decide (a.price = v)) :=
        funext fun a => decide_eq_decide.mpr neg_inj
      rw [hfun] at hst
      exact hst
  · have hS : sortStage q.sort (filteredProducts catalog q)
        = sortByKey (fun p => -p.rating) (filteredProducts catalog q) := by
      rw [h, sortStage_rating]
    refine ⟨?_, fun v => ?_⟩
    · have hs := getProducts_sorted_of_key catalog q _ hS
      exact hs.imp (fun hab => neg_le_neg_iff.mp hab)
    · have hst := getProducts_stable_of_key catalog q _ hS (-v)
      have hfun : (fun a : Product => decide (-a.rating = -v))
          = (fun a : Product => decide (a.rating = v)) :=
        funext fun a => decide_eq_decide.mpr neg_inj
      rw [hfun] at hst
      exact hst

/-- C5 witness: ascending-price sort on the five-product catalog. -/
theorem C5_explicit_sorts_witness :
    ((getProducts catalogFive { sort := some "price_asc", limit := 3 }).products).Sorted
      (fun a b => a.price ≤ b.price) :=
  ((C5_explicit_sorts_sorted_stable catalogFive
      { sort := some "price_asc", limit := 3 }).1 rfl).1

/-- C6: for a fixed catalog, filters and sort key, concatenating the item
pages 1, 2, …, n in order (same positive pageSize, n covering all the
matching items) reproduces exactly the full filtered-and-sorted sequence,
which is a permutation of the matching products — nothing duplicated,
nothing omitted. -/
theorem C6_page_concat_reproduces (catalog : List Product) (q : Query) (n : ℕ)
    (hL : 1 ≤ q.limit)
    (hn : (sortStage q.sort (filteredProducts catalog q)).length ≤ n * q.limit.toNat) :
    ((List.range n).map
        (fun i : ℕ =>
          (getProducts catalog { q with page := (i : ℤ) + 1 }).products)).flatten
      = sortStage q.sort (filteredProducts catalog q) ∧
    (sortStage q.sort (filteredProducts catalog q)).Perm
      (catalog.filter (matchesAll q)) := by
  constructor
  · obtain ⟨m, hm⟩ : ∃ m : ℕ, q.limit = (m : ℤ) :=
      ⟨q.limit.toNat, (Int.toNat_of_nonneg (by omega)).symm⟩
    have hpage : ∀ i : ℕ,
        (getProducts catalog { q with page := (i : ℤ) + 1 }).products
          = ((sortStage q.sort (filteredProducts catalog q)).drop
              (i * q.limit.toNat)).take q.limit.toNat := by
      intro i
      show jsSlice (sortStage q.sort (filteredProducts catalog q))
          (((i : ℤ) + 1 - 1) * q.limit) ((((i : ℤ) + 1 - 1) * q.limit) + q.limit) = _
      have h1 : ((i : ℤ) + 1 - 1) * q.limit = (i : ℤ) * q.limit := by ring
      rw [h1, jsSlice_nonneg _ _ _ (by rw [hm]; positivity) (by omega), hm]
      rw [show ((i : ℤ) * (m : ℤ)) = ((i * m : ℕ) : ℤ) from by push_cast; ring]
      rw [Int.toNat_natCast, Int.toNat_natCast]
    have hmap : (fun i : ℕ =>
          (getProducts catalog { q with page := (i : ℤ) + 1 }).products)
        = (fun i : ℕ => ((sortStage q.sort (filteredProducts catalog q)).drop
            (i * q.limit.toNat)).take q.limit.toNat) := funext hpage
    rw [hmap, join_take_chunks, List.take_of_length_le hn]
  · have hF : (filteredProducts catalog q).Perm (catalog.filter (matchesAll q)) := by
      rw [filteredProducts_eq_filter]
    exact (sortStage_perm _ _).trans hF

/-- C6 witness: three products, pageSize 2, two pages. -/
theorem C6_page_concat_witness :
    ((List.range 2).map
        (fun i : ℕ => (getProducts [prodA, prodB, prodC]
          { (({ limit := 2 } : Query)) with page := (i : ℤ) + 1 }).products)).flatten
      = sortStage ({ limit := 2 } : Query).sort
          (filteredProducts [prodA, prodB, prodC] { limit := 2 }) ∧
    (sortStage ({ limit := 2 } : Query).sort
        (filteredProducts [prodA, prodB, prodC] { limit := 2 })).Perm
      ([prodA, prodB, prodC].filter (matchesAll { limit := 2 })) :=
  C6_page_concat_reproduces [prodA, prodB, prodC] { limit := 2 } 2
    (by decide) (by decide)

/-- C7: with a positive pageSize, `pages` is the ceiling of the matching
total divided by the pageSize, and it is zero exactly when the total is
zero. -/
theorem C7_totalPages_ceil (catalog : List Product) (q : Query) (hL : 1 ≤ q.limit) :
    (getProducts catalog q).pages
        = some ((((getProducts catalog q).total + q.limit.toNat - 1)
            / q.limit.toNat : ℕ) : ℤ) ∧
    ((getProducts catalog q).pages = some 0 ↔ (getProducts catalog q).total = 0) := by
  have hpages : (getProducts catalog q).pages
      = jsPages (getProducts catalog q).total q.limit := rfl
  rw [hpages, jsPages_eq_ceilDiv _ _ hL]
  refine ⟨rfl, ?_⟩
  set t := (getProducts catalog q).total
  set L := q.limit.toNat with hLdef
  have hLpos : 0 < L := by omega
  constructor
  · intro h
    have h0 : ((t + L - 1) / L : ℕ) = 0 := by exact_mod_cast Option.some.inj h
    have hlt := (Nat.div_eq_zero_iff hLpos).mp h0
    omega
  · intro h
    rw [h]
    have h0 : (0 + L - 1) / L = 0 := (Nat.div_eq_zero_iff hLpos).mpr (by omega)
    rw [h0]
    rfl

/-- C7 witness: five matching products with pageSize 2 give 3 pages. -/
theorem C7_totalPages_witness :
    (getProducts catalogFive { limit := 2 }).pages = some 3 := by
  have h := (C7_totalPages_ceil catalogFive { limit := 2 } (by decide)).1
  rw [h]
  decide

/-- C8: with a positive pageSize, the returned page never exceeds the
pageSize; a query matching nothing yields empty items with a zero total
and zero pages rather than an error; and a page beyond `pages` yields
empty items. -/
theorem C8_empty_results_not_error (catalog : List Product) (q : Query)
    (hL : 1 ≤ q.limit) :
    ((getProducts catalog q).products).length ≤ q.limit.toNat ∧
    ((getProducts catalog q).total = 0 →
      (getProducts catalog q).products = [] ∧ (getProducts catalog q).pages = some 0) ∧
    (∀ tp : ℤ, (getProducts catalog q).pages = some tp → tp < q.page →
      (getProducts catalog q).products = []) := by
  refine ⟨?_, fun h0 => ?_, fun tp hp hlt => ?_⟩
  · show (jsSlice (sortStage q.sort (filteredProducts catalog q))
        ((q.page - 1) * q.limit) ((q.page - 1) * q.limit + q.limit)).length ≤ _
    exact jsSlice_length_le _ _ _ (by omega)
  · have hSnil : sortStage q.sort (filteredProducts catalog q) = [] :=
      List.length_eq_zero.mp h0
    constructor
    · show jsSlice (sortStage q.sort (filteredProducts catalog q)) _ _ = []
      rw [hSnil]
      simp [jsSlice]
    · have hpages : (getProducts catalog q).pages
          = jsPages (getProducts catalog q).total q.limit := rfl
      rw [hpages, h0, jsPages_eq_ceilDiv _ _ hL]
      have h0' : (0 + q.limit.toNat - 1) / q.limit.toNat = 0 :=
        (Nat.div_eq_zero_iff (by omega)).mpr (by omega)
      rw [h0']
      rfl
  · obtain ⟨m, hm⟩ : ∃ m : ℕ, q.limit = (m : ℤ) :=
      ⟨q.limit.toNat, (Int.toNat_of_nonneg (by omega)).symm⟩
    have hm1 : 1 ≤ m := by omega
    set t := (getProducts catalog q).total with ht
    have hp' : (getProducts catalog q).pages
        = some (((t + q.limit.toNat - 1) / q.limit.toNat : ℕ) : ℤ) :=
      (jsPages_eq_ceilDiv t q.limit hL : jsPages t q.limit = _)
    rw [hp'] at hp
    set d : ℕ := (t + q.limit.toNat - 1) / q.limit.toNat with hd
    have htp : tp = (d : ℤ) := (Option.some.inj hp).symm
    have hbounds := ceilDiv_bounds t m hm1
    have hdm : d = (t + m - 1) / m := by rw [hd, hm, Int.toNat_natCast]
    have htd : t ≤ m * d := by rw [hdm]; exact hbounds.1
    have hpage1 : (d : ℤ) < q.page := htp ▸ hlt
    have hstart : ((getProducts catalog q).total : ℤ) ≤ (q.page - 1) * q.limit := by
      have h1 : (d : ℤ) ≤ q.page - 1 := by omega
      have h2 : (d : ℤ) * (m : ℤ) ≤ (q.page - 1) * (m : ℤ) :=
        mul_le_mul_of_nonneg_right h1 (by positivity)
      have h3 : (t : ℤ) ≤ (d : ℤ) * (m : ℤ) := by
        have : (t : ℤ) ≤ (m : ℤ) * (d : ℤ) := by exact_mod_cast htd
        linarith [this]
      rw [hm, ← ht]
      linarith
    show jsSlice (sortStage q.sort (filteredProducts catalog q))
        ((q.page - 1) * q.limit) ((q.page - 1) * q.limit + q.limit) = []
    apply jsSlice_eq_nil_of_le
    · have hd0 : (0 : ℤ) ≤ (d : ℤ) := by positivity
      have hpg : (1 : ℤ) ≤ q.page := by omega
      rw [hm]
      exact mul_nonneg (by omega) (by positivity)
    · exact hstart

/-- C8 witness: pageSize 2 on the five-product catalog bounds the page
length by 2. -/
theorem C8_empty_results_witness :
    ((getProducts catalogFive { limit := 2 }).products).length
      ≤ ({ limit := 2 } : Query).limit.toNat :=
  (C8_empty_results_not_error catalogFive { limit := 2 } (by decide)).1

/-- C10: a sort value that is none of the three recognized keys — absent
or any unrecognized string — raises no error and causes no reordering:
the items are the filtered products in catalog relative order, selected by
the page slice. -/
theorem C10_unrecognized_sort_no_reorder (catalog : List Product) (q : Query)
    (h1 : q.sort ≠ some "price_asc") (h2 : q.sort ≠ some "price_desc")
    (h3 : q.sort ≠ some "rating") :
    (getProducts catalog q).products
        = jsSlice (filteredProducts catalog q) ((q.page - 1) * q.limit)
            ((q.page - 1) * q.limit + q.limit) ∧
    ((getProducts catalog q).products).Sublist catalog :=
  getProducts_no_reorder catalog q (sortStage_other _ _ h1 h2 h3)

/-- C10 witness: the frontend's own default value `newest` is not a
recognized key of the controller and leaves catalog order untouched. -/
theorem C10_unrecognized_sort_witness :
    (getProducts [prodA, prodB] { sort := some "newest" }).products
        = jsSlice (filteredProducts [prodA, prodB] { sort := some "newest" })
            ((({ sort := some "newest" } : Query).page - 1)
              * ({ sort := some "newest" } : Query).limit)
            ((({ sort := some "newest" } : Query).page - 1)
                * ({ sort := some "newest" } : Query).limit
              + ({ sort := some "newest" } : Query).limit) ∧
    ((getProducts [prodA, prodB] { sort := some "newest" }).products).Sublist
      [prodA, prodB] :=
  C10_unrecognized_sort_no_reorder [prodA, prodB] { sort := some "newest" }
    (by decide) (by decide) (by decide)
